import Mathlib

/-!
Verification of the kube-dashboard core subsystem against its
natural-language specification.

The Go sources are shallowly embedded as pure Lean functions:

* `KubeDashboard.Mongo`    — the MongoDB repository (`Store.Save`, `Get`,
  `Delete`, `extractMetadata`, `getKindFromType`), with the Mongo
  collection modelled as an association list keyed by the document `_id`
  and `UpdateOne(upsert, $set, $setOnInsert created_at)` modelled by
  `upsert`.
* `KubeDashboard.Core`     — `ClusterManager.WithReauthentication` and
  `isAuthenticationError` from the core package.
* `KubeDashboard.Cluster`  — `Manager.Register` (watch-layer registry) and
  `PublishConnection` (retry loop for the `cluster_registered` topic).
* `KubeDashboard.Messaging`— the gRPC transport (`GRPCServer.PublishEvent`,
  `GRPCClient.Publish`).
* `KubeDashboard.Watch`    — the pod watch cache read path
  (`PodProvider.ListPods` / `GetPod`) and the topic choices of the pod and
  namespace informer event handlers.

Machine timestamps (`time.Now()`) are passed in explicitly as `Nat`
values; Go errors are `Option String` / `Except String` carrying the
formatted message.
-/

namespace KubeDashboard

namespace Mongo

/-- The fields of a Kubernetes object that the store reads through the
unstructured accessors, plus the Go dynamic type name (used by the
`getKindFromType` fallback) and an opaque payload standing for the rest of
the serialized object. -/
structure KubeResource where
  kind : String
  apiVersion : String
  name : String
  ns : String
  resourceVersion : String
  uid : String
  typeName : String
  payload : String
deriving DecidableEq

/-- `ResourceMetadata` from the mongo store: common Kubernetes resource
metadata extracted from an object. -/
structure ResourceMetadata where
  kind : String
  apiVersion : String
  name : String
  ns : String
  resourceVersion : String
  uid : String
deriving DecidableEq

/-- `getKindFromType`: determines the Kind from the object's Go type name.
The Go switch maps every listed type name to itself and defaults to the
type name, so it is the identity on the type name; the cases are kept to
mirror the source. -/
def getKindFromType (typeName : String) : String :=
  match typeName with
  | "Pod" => "Pod"
  | "Namespace" => "Namespace"
  | "Service" => "Service"
  | "Deployment" => "Deployment"
  | "ConfigMap" => "ConfigMap"
  | "Secret" => "Secret"
  | "Node" => "Node"
  | "PersistentVolume" => "PersistentVolume"
  | "PersistentVolumeClaim" => "PersistentVolumeClaim"
  | "ReplicaSet" => "ReplicaSet"
  | "StatefulSet" => "StatefulSet"
  | "DaemonSet" => "DaemonSet"
  | "Job" => "Job"
  | "CronJob" => "CronJob"
  | "Ingress" => "Ingress"
  | t => t

/-- `extractMetadata`: reads the metadata through the unstructured
accessors; falls back to `getKindFromType` when the Kind is empty and to
`"v1"` when the apiVersion is empty.  (The `ToUnstructured` conversion is
total on this data model, so the Go error branch does not occur.) -/
def extractMetadata (r : KubeResource) : ResourceMetadata :=
  { kind := if r.kind = "" then getKindFromType r.typeName else r.kind
    apiVersion := if r.apiVersion = "" then "v1" else r.apiVersion
    name := r.name
    ns := r.ns
    resourceVersion := r.resourceVersion
    uid := r.uid }

/-- The document `_id` computed by `Store.Save`:
`cluster:namespace:kind:name`, with the namespace segment omitted for the
`Namespace` kind. -/
def saveId (clusterID : String) (meta : ResourceMetadata) : String :=
  if meta.kind = "Namespace" then
    clusterID ++ ":" ++ meta.kind ++ ":" ++ meta.name
  else
    clusterID ++ ":" ++ meta.ns ++ ":" ++ meta.kind ++ ":" ++ meta.name

/-- The document `_id` recomputed by `Store.Get` from its arguments. -/
def getId (clusterID ns kind name : String) : String :=
  if kind = "Namespace" then
    clusterID ++ ":" ++ kind ++ ":" ++ name
  else
    clusterID ++ ":" ++ ns ++ ":" ++ kind ++ ":" ++ name

/-- The document `_id` recomputed by `Store.Delete` from its arguments. -/
def deleteId (clusterID ns kind name : String) : String :=
  if kind = "Namespace" then
    clusterID ++ ":" ++ kind ++ ":" ++ name
  else
    clusterID ++ ":" ++ ns ++ ":" ++ kind ++ ":" ++ name

/-- The synthetic UID `Save` derives when the upstream UID is missing:
`clusterID-namespace-name`. -/
def syntheticUID (clusterID ns name : String) : String :=
  clusterID ++ "-" ++ ns ++ "-" ++ name

/-- The `SetGroupVersionKind` step of `Save`: the object's TypeMeta is
overwritten with the (defaulted) kind and apiVersion from the extracted
metadata before the object is stored.  Splitting `group/version` and
rejoining reproduces the original apiVersion string, so the net effect is
writing back the defaulted fields. -/
def normalizeObj (r : KubeResource) : KubeResource :=
  { r with
    kind := (extractMetadata r).kind
    apiVersion := (extractMetadata r).apiVersion }

/-- One stored Mongo document of the `resources` collection.  The
`namespace` field is `none` when the document was written without a
namespace field (cluster-scoped `Namespace` kind). -/
structure StoredDoc where
  id : String
  clusterID : String
  kind : String
  apiVersion : String
  name : String
  uid : String
  resourceVersion : String
  ns : Option String
  resource : KubeResource
  createdAt : Nat
  updatedAt : Nat
deriving DecidableEq

/-- The Mongo `resources` collection, as an association list keyed by the
document `_id`. -/
abbrev Store := List (String × StoredDoc)

/-- `FindOne {_id: id}`. -/
def lookupStore : Store → String → Option StoredDoc
  | [], _ => none
  | (k, d) :: rest, id => if k = id then some d else lookupStore rest id

/-- Number of documents stored under a given `_id` (the unique index on
`_id` makes this 0 or 1 in Mongo; the model keeps the count explicit so
that "exactly one record" is a real statement). -/
def countId : Store → String → Nat
  | [], _ => 0
  | (k, _) :: rest, id => (if k = id then 1 else 0) + countId rest id

/-- `UpdateOne({_id: id}, {$set: doc, $setOnInsert: {created_at: now}},
upsert)`: if a document with the id exists, every `$set` field is
overwritten and `created_at` is kept; otherwise the document is inserted
with `created_at` as built by the caller. -/
def upsert : Store → String → StoredDoc → Store
  | [], id, doc => [(id, doc)]
  | (k, old) :: rest, id, doc =>
    if k = id then (k, { doc with createdAt := old.createdAt }) :: rest
    else (k, old) :: upsert rest id doc

/-- The document built by `Store.Save` at time `now` (its `created_at` is
provisional: `upsert` keeps the existing `created_at` on update). -/
def saveDoc (clusterID : String) (now : Nat) (obj : KubeResource) : StoredDoc :=
  { id := saveId clusterID (extractMetadata obj)
    clusterID := clusterID
    kind := (extractMetadata obj).kind
    apiVersion := (extractMetadata obj).apiVersion
    name := (extractMetadata obj).name
    uid :=
      if (extractMetadata obj).uid = "" then
        syntheticUID clusterID (extractMetadata obj).ns (extractMetadata obj).name
      else (extractMetadata obj).uid
    resourceVersion := (extractMetadata obj).resourceVersion
    ns :=
      if (extractMetadata obj).kind ≠ "Namespace" then some (extractMetadata obj).ns
      else none
    resource := normalizeObj obj
    createdAt := now
    updatedAt := now }

/-- `Store.Save`: extracts the metadata, rejects a missing name (a missing
kind only logs a warning, a missing UID gets the synthetic UID), computes
the composite `_id` and upserts the document. -/
def save (s : Store) (now : Nat) (clusterID : String) (obj : KubeResource) :
    Except String Store :=
  let meta := extractMetadata obj
  if meta.name = "" then
    .error "resource must have a name"
  else
    .ok (upsert s (saveId clusterID meta) (saveDoc clusterID now obj))

/-- `Store.Get`: recomputes the `_id` and looks the document up; a miss is
the `resource not found` error.  (The Go code then decodes the document's
`resource` field into the caller's value; the model returns the whole
document so record-level facts can be stated — the decoded value is its
`resource` field.) -/
def get (s : Store) (clusterID ns kind name : String) : Except String StoredDoc :=
  match lookupStore s (getId clusterID ns kind name) with
  | none => .error ("resource not found: " ++ getId clusterID ns kind name)
  | some doc => .ok doc

/-- `DeleteOne {_id: id}` removes the (at most one) document with the id;
deleting a missing document is not an error. -/
def removeFirst : Store → String → Store
  | [], _ => []
  | (k, d) :: rest, id => if k = id then rest else (k, d) :: removeFirst rest id

/-- `Store.Delete`: recomputes the `_id` and deletes the document. -/
def deleteDoc (s : Store) (clusterID ns kind name : String) : Store :=
  removeFirst s (deleteId clusterID ns kind name)

/-- Repeated `Save` calls, oldest first, each with its `time.Now()`
timestamp. -/
def saveAll (clusterID : String) : Store → List (Nat × KubeResource) → Except String Store
  | s, [] => .ok s
  | s, (t, r) :: rest =>
    match save s t clusterID r with
    | .error e => .error e
    | .ok s' => saveAll clusterID s' rest

/-- The key fields of the extracted metadata that determine the composite
`_id` (namespace, kind, name). -/
def metaKey (r : KubeResource) : String × String × String :=
  ((extractMetadata r).ns, (extractMetadata r).kind, (extractMetadata r).name)

/-- The last of a nonempty sequence of writes. -/
def lastWrite (w : Nat × KubeResource) : List (Nat × KubeResource) → Nat × KubeResource
  | [] => w
  | q :: t => lastWrite q t

/-- The `updated_at` of the record after further writes `ws` hit a record
currently equal to `d`. -/
def updAfter (d : StoredDoc) : List (Nat × KubeResource) → Nat
  | [] => d.updatedAt
  | p :: rest => (lastWrite p rest).1

/-- The stored resource value after further writes `ws` hit a record
currently equal to `d`. -/
def resAfter (d : StoredDoc) : List (Nat × KubeResource) → KubeResource
  | [] => d.resource
  | p :: rest => normalizeObj (lastWrite p rest).2

theorem lookupStore_upsert_none (s : Store) (id : String) (doc : StoredDoc)
    (h : lookupStore s id = none) :
    lookupStore (upsert s id doc) id = some doc := by
  induction s with
  | nil => simp [upsert, lookupStore]
  | cons e rest ih =>
    obtain ⟨k, d⟩ := e
    by_cases hk : k = id
    · simp [lookupStore, hk] at h
    · simp [lookupStore, upsert, hk] at h ⊢
      exact ih h

theorem lookupStore_upsert_some (s : Store) (id : String) (doc d0 : StoredDoc)
    (h : lookupStore s id = some d0) :
    lookupStore (upsert s id doc) id = some { doc with createdAt := d0.createdAt } := by
  induction s with
  | nil => simp [lookupStore] at h
  | cons e rest ih =>
    obtain ⟨k, d⟩ := e
    by_cases hk : k = id
    · simp [lookupStore, hk] at h
      simp [upsert, lookupStore, hk, h]
    · simp [lookupStore, upsert, hk] at h ⊢
      exact ih h

theorem countId_upsert_none (s : Store) (id : String) (doc : StoredDoc)
    (h : lookupStore s id = none) :
    countId (upsert s id doc) id = countId s id + 1 := by
  induction s with
  | nil => simp [upsert, countId]
  | cons e rest ih =>
    obtain ⟨k, d⟩ := e
    by_cases hk : k = id
    · simp [lookupStore, hk] at h
    · simp [lookupStore, hk] at h
      simp [upsert, countId, hk, ih h]

theorem countId_upsert_some (s : Store) (id : String) (doc d0 : StoredDoc)
    (h : lookupStore s id = some d0) :
    countId (upsert s id doc) id = countId s id := by
  induction s with
  | nil => simp [lookupStore] at h
  | cons e rest ih =>
    obtain ⟨k, d⟩ := e
    by_cases hk : k = id
    · simp [upsert, countId, hk]
    · simp [lookupStore, hk] at h
      simp [upsert, countId, hk, ih h]

theorem lookupStore_eq_none_of_countId_zero (s : Store) (id : String)
    (h : countId s id = 0) : lookupStore s id = none := by
  induction s with
  | nil => rfl
  | cons e rest ih =>
    obtain ⟨k, d⟩ := e
    by_cases hk : k = id
    · simp [countId, hk] at h
    · simp [countId, hk] at h
      simp [lookupStore, hk, ih h]

theorem save_eq_upsert (s : Store) (t : Nat) (cid : String) (r : KubeResource)
    (h : (extractMetadata r).name ≠ "") :
    save s t cid r = .ok (upsert s (saveId cid (extractMetadata r)) (saveDoc cid t r)) := by
  simp [save, h]

theorem saveId_eq_getId (cid : String) (meta : ResourceMetadata) :
    saveId cid meta = getId cid meta.ns meta.kind meta.name := by
  by_cases h : meta.kind = "Namespace" <;> simp [saveId, getId, h]

theorem saveDoc_updatedAt (cid : String) (t : Nat) (r : KubeResource) :
    (saveDoc cid t r).updatedAt = t := rfl

theorem saveDoc_resource (cid : String) (t : Nat) (r : KubeResource) :
    (saveDoc cid t r).resource = normalizeObj r := rfl

/-- Invariant of the replay induction: once a record with `created_at = c`
sits under the composite id, any further replayed writes of the same
logical resource keep exactly one record, keep `created_at`, and leave the
`updated_at` and the stored value of the last write. -/
theorem saveAll_maintains (cid ns k nm : String)
    (ws : List (Nat × KubeResource)) :
    ∀ (s : Store) (d : StoredDoc),
    (∀ p ∈ ws, metaKey p.2 = (ns, k, nm)) →
    nm ≠ "" →
    lookupStore s (getId cid ns k nm) = some d →
    countId s (getId cid ns k nm) = 1 →
    ∃ s' d', saveAll cid s ws = .ok s' ∧
      countId s' (getId cid ns k nm) = 1 ∧
      lookupStore s' (getId cid ns k nm) = some d' ∧
      d'.createdAt = d.createdAt ∧
      d'.updatedAt = updAfter d ws ∧
      d'.resource = resAfter d ws := by
  induction ws with
  | nil =>
    intro s d _ _ hl hc
    exact ⟨s, d, rfl, hc, hl, rfl, rfl, rfl⟩
  | cons p rest ih =>
    intro s d hkey hnm hl hc
    have hkp : metaKey p.2 = (ns, k, nm) := hkey p (List.mem_cons_self p rest)
    have hkrest : ∀ q ∈ rest, metaKey q.2 = (ns, k, nm) := by
      intro q hq; exact hkey q (List.mem_cons_of_mem p hq)
    have hns : (extractMetadata p.2).ns = ns := congrArg (·.1) hkp
    have hki : (extractMetadata p.2).kind = k := congrArg (·.2.1) hkp
    have hni : (extractMetadata p.2).name = nm := congrArg (·.2.2) hkp
    have hname : (extractMetadata p.2).name ≠ "" := by rw [hni]; exact hnm
    have hid : saveId cid (extractMetadata p.2) = getId cid ns k nm := by
      rw [saveId_eq_getId, hns, hki, hni]
    have hstep := save_eq_upsert s p.1 cid p.2 hname
    rw [hid] at hstep
    have hl1 := lookupStore_upsert_some s (getId cid ns k nm) (saveDoc cid p.1 p.2) d hl
    have hc1 : countId (upsert s (getId cid ns k nm) (saveDoc cid p.1 p.2)) (getId cid ns k nm) = 1 := by
      rw [countId_upsert_some s _ _ d hl]; exact hc
    obtain ⟨s', d', hall, hcnt, hlook, hcr, hupd, hres⟩ :=
      ih (upsert s (getId cid ns k nm) (saveDoc cid p.1 p.2))
        { saveDoc cid p.1 p.2 with createdAt := d.createdAt } hkrest hnm hl1 hc1
    refine ⟨s', d', ?_, hcnt, hlook, hcr, ?_, ?_⟩
    · show saveAll cid s (p :: rest) = .ok s'
      simp only [saveAll, hstep]
      exact hall
    · rw [hupd]
      cases rest with
      | nil => simp [updAfter, lastWrite, saveDoc]
      | cons q t => simp [updAfter, lastWrite]
    · rw [hres]
      cases rest with
      | nil => simp [resAfter, lastWrite, saveDoc]
      | cons q t => simp [resAfter, lastWrite]

/-- C1: replaying `Save` N ≥ 1 times for the same cluster and the same
logical resource (same extracted namespace/kind/name, non-empty name)
leaves exactly one record under the composite id; its `created_at` is the
first save's timestamp, its `updated_at` the last save's timestamp, and
the stored resource value is the last full write (the object as written
back by `Save`'s `SetGroupVersionKind` normalization). -/
theorem save_replay_idempotent (cid : String) (w : Nat × KubeResource)
    (ws : List (Nat × KubeResource)) (s0 : Store) (ns k nm : String)
    (hkey : ∀ p ∈ (w :: ws), metaKey p.2 = (ns, k, nm))
    (hnm : nm ≠ "")
    (h0 : countId s0 (getId cid ns k nm) = 0) :
    ∃ s' d, saveAll cid s0 (w :: ws) = .ok s' ∧
      countId s' (getId cid ns k nm) = 1 ∧
      lookupStore s' (getId cid ns k nm) = some d ∧
      d.createdAt = w.1 ∧
      d.updatedAt = (lastWrite w ws).1 ∧
      d.resource = normalizeObj (lastWrite w ws).2 := by
  have hkw : metaKey w.2 = (ns, k, nm) := hkey w (List.mem_cons_self w ws)
  have hkrest : ∀ q ∈ ws, metaKey q.2 = (ns, k, nm) := by
    intro q hq; exact hkey q (List.mem_cons_of_mem w hq)
  have hns : (extractMetadata w.2).ns = ns := congrArg (·.1) hkw
  have hki : (extractMetadata w.2).kind = k := congrArg (·.2.1) hkw
  have hni : (extractMetadata w.2).name = nm := congrArg (·.2.2) hkw
  have hname : (extractMetadata w.2).name ≠ "" := by rw [hni]; exact hnm
  have hid : saveId cid (extractMetadata w.2) = getId cid ns k nm := by
    rw [saveId_eq_getId, hns, hki, hni]
  have hstep := save_eq_upsert s0 w.1 cid w.2 hname
  rw [hid] at hstep
  have hnone := lookupStore_eq_none_of_countId_zero s0 (getId cid ns k nm) h0
  have hl1 := lookupStore_upsert_none s0 (getId cid ns k nm) (saveDoc cid w.1 w.2) hnone
  have hc1 : countId (upsert s0 (getId cid ns k nm) (saveDoc cid w.1 w.2)) (getId cid ns k nm) = 1 := by
    rw [countId_upsert_none s0 _ _ hnone, h0]
  obtain ⟨s', d', hall, hcnt, hlook, hcr, hupd, hres⟩ :=
    saveAll_maintains cid ns k nm ws
      (upsert s0 (getId cid ns k nm) (saveDoc cid w.1 w.2))
      (saveDoc cid w.1 w.2) hkrest hnm hl1 hc1
  refine ⟨s', d', ?_, hcnt, hlook, ?_, ?_, ?_⟩
  · show saveAll cid s0 (w :: ws) = .ok s'
    simp only [saveAll, hstep]
    exact hall
  · rw [hcr]; rfl
  · rw [hupd]
    cases ws with
    | nil => simp [updAfter, lastWrite, saveDoc]
    | cons q t => simp [updAfter, lastWrite]
  · rw [hres]
    cases ws with
    | nil => simp [resAfter, lastWrite, saveDoc]
    | cons q t => simp [resAfter, lastWrite]

theorem lookupStore_upsert_uid (s : Store) (id : String) (doc d : StoredDoc)
    (h : lookupStore (upsert s id doc) id = some d) : d.uid = doc.uid := by
  cases hls : lookupStore s id with
  | none =>
    rw [lookupStore_upsert_none s id doc hls] at h
    cases h; rfl
  | some d0 =>
    rw [lookupStore_upsert_some s id doc d0 hls] at h
    cases h; rfl

theorem save_ok_elim (s s' : Store) (t : Nat) (cid : String) (r : KubeResource)
    (e : save s t cid r = .ok s') :
    (extractMetadata r).name ≠ "" ∧
    s' = upsert s (saveId cid (extractMetadata r)) (saveDoc cid t r) := by
  by_cases hname : (extractMetadata r).name = ""
  · simp [save, hname] at e
  · rw [save_eq_upsert s t cid r hname] at e
    cases e
    exact ⟨hname, rfl⟩

/-- C2: when the upstream UID is empty, `Save` stores the synthetic UID
`clusterID-namespace-name`; any two independent `Save` calls (different
collections, timestamps, resource contents) for the same
`(clusterID, namespace, name)` store the same synthetic UID. -/
theorem synthetic_uid_deterministic (cid : String) (s1 s2 s1' s2' : Store)
    (t1 t2 : Nat) (r1 r2 : KubeResource) (d1 d2 : StoredDoc)
    (h1 : (extractMetadata r1).uid = "") (h2 : (extractMetadata r2).uid = "")
    (hns : (extractMetadata r1).ns = (extractMetadata r2).ns)
    (hn : (extractMetadata r1).name = (extractMetadata r2).name)
    (e1 : save s1 t1 cid r1 = .ok s1') (e2 : save s2 t2 cid r2 = .ok s2')
    (l1 : lookupStore s1' (saveId cid (extractMetadata r1)) = some d1)
    (l2 : lookupStore s2' (saveId cid (extractMetadata r2)) = some d2) :
    d1.uid = syntheticUID cid (extractMetadata r1).ns (extractMetadata r1).name ∧
    d2.uid = d1.uid := by
  obtain ⟨_, hs1⟩ := save_ok_elim s1 s1' t1 cid r1 e1
  obtain ⟨_, hs2⟩ := save_ok_elim s2 s2' t2 cid r2 e2
  rw [hs1] at l1
  rw [hs2] at l2
  have hu1 := lookupStore_upsert_uid _ _ _ _ l1
  have hu2 := lookupStore_upsert_uid _ _ _ _ l2
  have hd1 : d1.uid = syntheticUID cid (extractMetadata r1).ns (extractMetadata r1).name := by
    rw [hu1]; simp [saveDoc, h1]
  have hd2 : d2.uid = syntheticUID cid (extractMetadata r2).ns (extractMetadata r2).name := by
    rw [hu2]; simp [saveDoc, h2]
  refine ⟨hd1, ?_⟩
  rw [hd1, hd2, hns, hn]

/-- A Namespace object as delivered by the watch layer: cluster-scoped, so
its own `metadata.namespace` is empty, and without an upstream UID. -/
def kubeSystemNamespace : KubeResource :=
  { kind := "Namespace", apiVersion := "v1", name := "kube-system", ns := "",
    resourceVersion := "7", uid := "ns-uid-1", typeName := "Namespace",
    payload := "kube-system-spec" }

/-- C7: the composite id computed by `Save` is recomputed identically by
`Get` and `Delete`; for the cluster-scoped `Namespace` kind it omits the
namespace segment, for every other kind it contains it; and saving a
Namespace then getting it with an empty namespace argument yields the
record `c1:Namespace:kube-system`, stored without a namespace field. -/
theorem composite_id_scoping (cid ns k nm : String) (r : KubeResource)
    (hk : (extractMetadata r).kind = k)
    (hns : (extractMetadata r).ns = ns)
    (hn : (extractMetadata r).name = nm) :
    saveId cid (extractMetadata r) = getId cid ns k nm ∧
    deleteId cid ns k nm = getId cid ns k nm ∧
    (k = "Namespace" → getId cid ns k nm = cid ++ ":" ++ k ++ ":" ++ nm) ∧
    (k ≠ "Namespace" → getId cid ns k nm = cid ++ ":" ++ ns ++ ":" ++ k ++ ":" ++ nm) ∧
    (save [] 5 "c1" kubeSystemNamespace).map
        (fun s' => (get s' "c1" "" "Namespace" "kube-system").map (fun d => (d.id, d.ns))) =
      .ok (.ok ("c1:Namespace:kube-system", none)) := by
  refine ⟨?_, rfl, ?_, ?_, rfl⟩
  · rw [saveId_eq_getId, hns, hk, hn]
  · intro hns'; simp [getId, hns']
  · intro hns'; simp [getId, hns']

/-- A resource whose extracted name is empty: `Save` must reject it. -/
def unnamedResource : KubeResource :=
  { kind := "Pod", apiVersion := "v1", name := "", ns := "default",
    resourceVersion := "1", uid := "u1", typeName := "Pod", payload := "x" }

/-- A resource with neither kind (nor Go type name) nor UID, but with a
name: `Save` accepts it. -/
def kindlessResource : KubeResource :=
  { kind := "", apiVersion := "", name := "web-1", ns := "default",
    resourceVersion := "1", uid := "", typeName := "", payload := "x" }

/-- C10: `Save` fails (before any write) exactly when the extracted name
is empty; an empty kind or an empty UID does not make it fail — with a
non-empty name the upsert is performed unconditionally. -/
theorem save_requires_name (s : Store) (t : Nat) (cid : String) (r : KubeResource) :
    ((extractMetadata r).name = "" → save s t cid r = .error "resource must have a name") ∧
    ((extractMetadata r).name ≠ "" →
      save s t cid r = .ok (upsert s (saveId cid (extractMetadata r)) (saveDoc cid t r))) := by
  constructor
  · intro h; simp [save, h]
  · intro h; exact save_eq_upsert s t cid r h

/-- Witness for C10 at concrete inputs: the empty-name resource is
rejected, the kindless/UID-less one is saved. -/
theorem save_requires_name_witness :
    save [] 0 "c1" unnamedResource = .error "resource must have a name" ∧
    save [] 0 "c1" kindlessResource =
      .ok (upsert [] (saveId "c1" (extractMetadata kindlessResource))
        (saveDoc "c1" 0 kindlessResource)) :=
  ⟨(save_requires_name [] 0 "c1" unnamedResource).1 (by decide),
   (save_requires_name [] 0 "c1" kindlessResource).2 (by decide)⟩

/-- First replayed write of pod `web-1`. -/
def podWrite1 : KubeResource :=
  { kind := "Pod", apiVersion := "v1", name := "web-1", ns := "default",
    resourceVersion := "101", uid := "pod-uid-1", typeName := "Pod",
    payload := "spec-a" }

/-- Second replayed write of the same logical pod (newer content). -/
def podWrite2 : KubeResource :=
  { kind := "Pod", apiVersion := "v1", name := "web-1", ns := "default",
    resourceVersion := "102", uid := "pod-uid-1", typeName := "Pod",
    payload := "spec-b" }

/-- Witness for C1: two replayed saves of pod `web-1` at times 1 and 2
leave one record with `created_at = 1`, `updated_at = 2` and the second
write's content. -/
theorem save_replay_idempotent_witness :
    ∃ s' d, saveAll "c1" [] ((1, podWrite1) :: [(2, podWrite2)]) = .ok s' ∧
      countId s' (getId "c1" "default" "Pod" "web-1") = 1 ∧
      lookupStore s' (getId "c1" "default" "Pod" "web-1") = some d ∧
      d.createdAt = (1, podWrite1).1 ∧
      d.updatedAt = (lastWrite (1, podWrite1) [(2, podWrite2)]).1 ∧
      d.resource = normalizeObj (lastWrite (1, podWrite1) [(2, podWrite2)]).2 :=
  save_replay_idempotent "c1" (1, podWrite1) [(2, podWrite2)] []
    "default" "Pod" "web-1" (by decide) (by decide) (by decide)

/-- First delivery of a UID-less pod. -/
def podNoUid1 : KubeResource :=
  { kind := "Pod", apiVersion := "v1", name := "web-1", ns := "default",
    resourceVersion := "11", uid := "", typeName := "Pod", payload := "spec-a" }

/-- Re-delivery of the same logical UID-less pod with different content. -/
def podNoUid2 : KubeResource :=
  { kind := "Pod", apiVersion := "v1", name := "web-1", ns := "default",
    resourceVersion := "12", uid := "", typeName := "Pod", payload := "spec-b" }

/-- Witness for C2: two independent saves of a UID-less pod store the same
synthetic UID `c1-default-web-1`. -/
theorem synthetic_uid_deterministic_witness :
    (saveDoc "c1" 3 podNoUid1).uid =
      syntheticUID "c1" (extractMetadata podNoUid1).ns (extractMetadata podNoUid1).name ∧
    (saveDoc "c1" 4 podNoUid2).uid = (saveDoc "c1" 3 podNoUid1).uid :=
  synthetic_uid_deterministic "c1" [] [] _ _ 3 4 podNoUid1 podNoUid2
    (saveDoc "c1" 3 podNoUid1) (saveDoc "c1" 4 podNoUid2)
    (by decide) (by decide) (by decide) (by decide) rfl rfl (by decide) (by decide)

/-- Witness for C7 at the claim's concrete kinds. -/
theorem composite_id_scoping_witness :
    saveId "c1" (extractMetadata kubeSystemNamespace) = getId "c1" "" "Namespace" "kube-system" ∧
    deleteId "c1" "" "Namespace" "kube-system" = getId "c1" "" "Namespace" "kube-system" ∧
    ("Namespace" = "Namespace" →
      getId "c1" "" "Namespace" "kube-system" = "c1" ++ ":" ++ "Namespace" ++ ":" ++ "kube-system") ∧
    ("Namespace" ≠ "Namespace" →
      getId "c1" "" "Namespace" "kube-system" =
        "c1" ++ ":" ++ "" ++ ":" ++ "Namespace" ++ ":" ++ "kube-system") ∧
    (save [] 5 "c1" kubeSystemNamespace).map
        (fun s' => (get s' "c1" "" "Namespace" "kube-system").map (fun d => (d.id, d.ns))) =
      .ok (.ok ("c1:Namespace:kube-system", none)) :=
  composite_id_scoping "c1" "" "Namespace" "kube-system" kubeSystemNamespace
    (by decide) (by decide) (by decide)

end Mongo

namespace Core

/-- Does the haystack start with the needle?  (Helper for the
`strings.Contains` model.) -/
def leadMatch : List Char → List Char → Bool
  | [], _ => true
  | _ :: _, [] => false
  | a :: as, b :: bs => a == b && leadMatch as bs

/-- Does the haystack contain the needle as a contiguous run? -/
def hasSubstring (needle : List Char) : List Char → Bool
  | [] => needle.isEmpty
  | c :: rest => leadMatch needle (c :: rest) || hasSubstring needle rest

/-- `strings.Contains(s, pat)`. -/
def strContains (s pat : String) : Bool :=
  hasSubstring pat.data s.data

/-- `isAuthenticationError`: the heuristic string match on the error
message (`"Unauthorized"` or `"expired"`); it is only applied to a present
error, so the `err != nil` guard is implicit. -/
def isAuthenticationError (err : String) : Bool :=
  strContains err "Unauthorized" || strContains err "expired"

/-- The cluster connection as `WithReauthentication` sees it: the
`*kubernetes.Clientset` handle, abstracted to a generation number —
re-authentication builds a fresh client, modelled as `clientGen + 1`. -/
structure CoreConnection where
  clientGen : Nat
deriving DecidableEq

/-- Observable outcome of one `WithReauthentication` call: the returned
error (`none` = success), the number of `provider.Authenticate` calls and
the number of `apiCall` invocations. -/
structure ReauthTrace where
  result : Option String
  authCalls : Nat
  apiCalls : Nat
deriving DecidableEq

/-- `ClusterManager.WithReauthentication`: runs the operation against the
current client; on an authentication-classified failure it
re-authenticates once and retries exactly once, returning the retry's
outcome unmodified; any other failure is returned without a retry.
`getConn` is the outcome of the `GetClusterConnection` call (lazy auth
included), `authenticate` the outcome of `provider.Authenticate` plus
client construction during the re-auth branch, and `apiCall` maps a client
generation to the operation's outcome. -/
def withReauthentication (getConn : Except String CoreConnection)
    (authenticate : Except String Unit) (apiCall : Nat → Option String) : ReauthTrace :=
  match getConn with
  | .error e => { result := some ("failed to get cluster: " ++ e), authCalls := 0, apiCalls := 0 }
  | .ok conn =>
    match apiCall conn.clientGen with
    | none => { result := none, authCalls := 0, apiCalls := 1 }
    | some e =>
      if isAuthenticationError e then
        match authenticate with
        | .error ae =>
          { result := some ("failed to re-authenticate cluster: " ++ ae)
            authCalls := 1, apiCalls := 1 }
        | .ok _ =>
          { result := apiCall (conn.clientGen + 1), authCalls := 1, apiCalls := 2 }
      else
        { result := some e, authCalls := 0, apiCalls := 1 }

/-- C3: for a registered cluster (connection obtained, re-authentication
succeeding), an auth-class failure followed by a retry success yields an
overall success; an operation that always fails with an auth-class error
causes exactly one re-authentication and exactly one retry and surfaces
the second failure unmodified; a non-auth-class failure is returned with
no re-authentication and no retry. -/
theorem with_reauthentication_retries_once (g : Nat) (apiCall : Nat → Option String) :
    (∀ e, apiCall g = some e → isAuthenticationError e = true →
      ((apiCall (g + 1) = none →
         withReauthentication (.ok ⟨g⟩) (.ok ()) apiCall = ⟨none, 1, 2⟩) ∧
       (∀ e2, apiCall (g + 1) = some e2 →
         withReauthentication (.ok ⟨g⟩) (.ok ()) apiCall = ⟨some e2, 1, 2⟩))) ∧
    (∀ e, apiCall g = some e → isAuthenticationError e = false →
      withReauthentication (.ok ⟨g⟩) (.ok ()) apiCall = ⟨some e, 0, 1⟩) ∧
    (apiCall g = none → withReauthentication (.ok ⟨g⟩) (.ok ()) apiCall = ⟨none, 0, 1⟩) := by
  refine ⟨fun e he hauth => ⟨fun hr => ?_, fun e2 he2 => ?_⟩, fun e he hnon => ?_, fun hok => ?_⟩
  · simp [withReauthentication, he, hauth, hr]
  · simp [withReauthentication, he, hauth, he2]
  · simp [withReauthentication, he, hnon]
  · simp [withReauthentication, hok]

/-- Witness for C3 at concrete operations: fail-once-then-succeed
succeeds; always-fail surfaces the second `Unauthorized` after one
re-auth and one retry; a non-auth failure is returned untouched. -/
theorem with_reauthentication_retries_once_witness :
    withReauthentication (.ok ⟨0⟩) (.ok ())
        (fun i => if i = 0 then some "Unauthorized" else none) = ⟨none, 1, 2⟩ ∧
    withReauthentication (.ok ⟨0⟩) (.ok ())
        (fun _ => some "Unauthorized") = ⟨some "Unauthorized", 1, 2⟩ ∧
    withReauthentication (.ok ⟨0⟩) (.ok ())
        (fun _ => some "connection refused") = ⟨some "connection refused", 0, 1⟩ :=
  ⟨((with_reauthentication_retries_once 0
      (fun i => if i = 0 then some "Unauthorized" else none)).1
        "Unauthorized" rfl (by decide)).1 rfl,
   ((with_reauthentication_retries_once 0
      (fun _ => some "Unauthorized")).1 "Unauthorized" rfl (by decide)).2
        "Unauthorized" rfl,
   (with_reauthentication_retries_once 0
      (fun _ => some "connection refused")).2.1 "connection refused" rfl (by decide)⟩

end Core

namespace Cluster

/-- `cluster.Connection` as `Manager.Register` creates it: only the `ID`
is set; client, config, informer and stop channel stay nil/zero until
`GetCluster` authenticates lazily. -/
structure Connection where
  ID : String
  hasClient : Bool
  hasConfig : Bool
  authDone : Bool
  running : Bool
deriving DecidableEq

/-- The `Manager.connections` map. -/
abbrev Registry := List (String × Connection)

def lookupConn : Registry → String → Option Connection
  | [], _ => none
  | (k, c) :: rest, id => if k = id then some c else lookupConn rest id

def countConn : Registry → String → Nat
  | [], _ => 0
  | (k, _) :: rest, id => (if k = id then 1 else 0) + countConn rest id

/-- `Manager.Register(clusterName, apiURL)`: a duplicate registration only
logs a warning and returns nil, leaving the map untouched; otherwise an
unauthenticated connection record holding only the ID is inserted.  The
`apiURL` is only logged.  The returned `Option String` is the Go error
(always nil). -/
def register (conns : Registry) (clusterName _apiURL : String) : Registry × Option String :=
  match lookupConn conns clusterName with
  | some _ => (conns, none)
  | none =>
    (conns ++ [(clusterName, ⟨clusterName, false, false, false, false⟩)], none)

theorem lookupConn_eq_none_of_countConn_zero (conns : Registry) (id : String)
    (h : countConn conns id = 0) : lookupConn conns id = none := by
  induction conns with
  | nil => rfl
  | cons e rest ih =>
    obtain ⟨k, c⟩ := e
    by_cases hk : k = id
    · simp [countConn, hk] at h
    · simp [countConn, hk] at h
      simp [lookupConn, hk, ih h]

theorem lookupConn_append_self (conns : Registry) (id : String) (c : Connection)
    (h : lookupConn conns id = none) :
    lookupConn (conns ++ [(id, c)]) id = some c := by
  induction conns with
  | nil => simp [lookupConn]
  | cons e rest ih =>
    obtain ⟨k, c0⟩ := e
    by_cases hk : k = id
    · simp [lookupConn, hk] at h
    · simp [lookupConn, hk] at h ⊢
      exact ih h

theorem countConn_append (conns : Registry) (id : String) (c : Connection) :
    countConn (conns ++ [(id, c)]) id = countConn conns id + 1 := by
  induction conns with
  | nil => simp [countConn]
  | cons e rest ih =>
    obtain ⟨k, c0⟩ := e
    by_cases hk : k = id
    all_goals simp [countConn, hk, ih]
    all_goals omega

/-- C6: registering the same cluster twice leaves exactly one connection
record for it, the second call returns nil (no-op warning), and the
registry — hence the existing record — is unchanged by the second call. -/
theorem register_idempotent (conns : Registry) (id apiURL1 apiURL2 : String)
    (h0 : countConn conns id = 0) :
    (register (register conns id apiURL1).1 id apiURL2).2 = none ∧
    (register (register conns id apiURL1).1 id apiURL2).1 = (register conns id apiURL1).1 ∧
    countConn (register (register conns id apiURL1).1 id apiURL2).1 id = 1 ∧
    lookupConn (register conns id apiURL1).1 id = some ⟨id, false, false, false, false⟩ := by
  have hnone := lookupConn_eq_none_of_countConn_zero conns id h0
  have h1 : (register conns id apiURL1).1 =
      conns ++ [(id, ⟨id, false, false, false, false⟩)] := by
    unfold register
    rw [hnone]
  have hl1 : lookupConn (register conns id apiURL1).1 id =
      some ⟨id, false, false, false, false⟩ := by
    rw [h1]; exact lookupConn_append_self conns id _ hnone
  have h2 : register (register conns id apiURL1).1 id apiURL2 =
      ((register conns id apiURL1).1, none) := by
    generalize hr : (register conns id apiURL1).1 = r1 at hl1 ⊢
    unfold register
    rw [hl1]
  refine ⟨by rw [h2], by rw [h2], ?_, hl1⟩
  rw [h2, h1, countConn_append, h0]

/-- Witness for C6: registering `c1` twice into an empty registry. -/
theorem register_idempotent_witness :
    (register (register [] "c1" "https://a").1 "c1" "https://b").2 = none ∧
    (register (register [] "c1" "https://a").1 "c1" "https://b").1 =
      (register [] "c1" "https://a").1 ∧
    countConn (register (register [] "c1" "https://a").1 "c1" "https://b").1 "c1" = 1 ∧
    lookupConn (register [] "c1" "https://a").1 "c1" =
      some ⟨"c1", false, false, false, false⟩ :=
  register_idempotent [] "c1" "https://a" "https://b" rfl

/-- Observable outcome of one `PublishConnection` call: the returned error
(`none` = success), the number of `Publish` attempts made, and the
successive sleep durations in seconds. -/
structure PublishTrace where
  result : Option String
  attempts : Nat
  sleeps : List Nat
deriving DecidableEq

/-- The `for i := 0; i < 5; i++` retry loop of `PublishConnection`:
each failed attempt logs a warning and sleeps 2 seconds; a success returns
nil immediately; when the loop ends the last error is wrapped. -/
def publishLoop (publish : Nat → Option String) :
    Nat → Nat → List Nat → Option String → PublishTrace
  | 0, made, sleeps, lastErr =>
    ⟨some ("failed to publish cluster connection after retries: " ++ lastErr.getD "")
     , made, sleeps⟩
  | fuel + 1, made, sleeps, _ =>
    match publish made with
    | none => ⟨none, made + 1, sleeps⟩
    | some e => publishLoop publish fuel (made + 1) (sleeps ++ [2]) (some e)

/-- `PublishConnection` (marshalling of the small payload cannot fail):
up to 5 `Publish("cluster_registered", data)` attempts. -/
def publishConnection (publish : Nat → Option String) : PublishTrace :=
  publishLoop publish 5 0 [] none

/-- Successive delays strictly grow — the weakest property any
exponential-backoff schedule has (each retry waits longer than the
previous one). -/
def growingBackoff : List Nat → Bool
  | a :: b :: rest => Nat.blt a b && growingBackoff (b :: rest)
  | _ => true

/-- Counterexample for C9 as stated: with the transport down for every
attempt, `PublishConnection` makes its 5 attempts and sleeps a constant
2 seconds after each one — the delay schedule `[2, 2, 2, 2, 2]` is not
exponential backoff (the delays never grow). -/
theorem publish_connection_backoff_constant :
    publishConnection (fun _ => some "transport down") =
      ⟨some "failed to publish cluster connection after retries: transport down",
       5, [2, 2, 2, 2, 2]⟩ ∧
    growingBackoff (publishConnection (fun _ => some "transport down")).sleeps = false := by
  decide

/-- C9 amended: the `cluster_registered` publish is retried up to 5
attempts with a constant 2-second delay after each failure (not
exponential backoff); the first success returns nil immediately with no
further attempts, and when every attempt fails an error wrapping the last
failure is returned. -/
theorem publish_connection_bounded_retry (publish : Nat → Option String)
    (es : Nat → String) :
    (∀ k, k < 5 → (∀ i, i < k → publish i = some (es i)) → publish k = none →
      publishConnection publish = ⟨none, k + 1, List.replicate k 2⟩) ∧
    ((∀ i, i < 5 → publish i = some (es i)) →
      publishConnection publish =
        ⟨some ("failed to publish cluster connection after retries: " ++ es 4),
         5, List.replicate 5 2⟩) := by
  constructor
  · intro k hk hfail hsucc
    interval_cases k
    · simp [publishConnection, publishLoop, hsucc]
    · have h0 := hfail 0 (by omega)
      simp [publishConnection, publishLoop, h0, hsucc, List.replicate]
    · have h0 := hfail 0 (by omega)
      have h1 := hfail 1 (by omega)
      simp [publishConnection, publishLoop, h0, h1, hsucc, List.replicate]
    · have h0 := hfail 0 (by omega)
      have h1 := hfail 1 (by omega)
      have h2 := hfail 2 (by omega)
      simp [publishConnection, publishLoop, h0, h1, h2, hsucc, List.replicate]
    · have h0 := hfail 0 (by omega)
      have h1 := hfail 1 (by omega)
      have h2 := hfail 2 (by omega)
      have h3 := hfail 3 (by omega)
      simp [publishConnection, publishLoop, h0, h1, h2, h3, hsucc, List.replicate]
  · intro hfail
    have h0 := hfail 0 (by omega)
    have h1 := hfail 1 (by omega)
    have h2 := hfail 2 (by omega)
    have h3 := hfail 3 (by omega)
    have h4 := hfail 4 (by omega)
    simp [publishConnection, publishLoop, h0, h1, h2, h3, h4, List.replicate]

/-- Witness for the amended C9: two failures then a success gives nil
after 3 attempts and two 2-second sleeps; a permanently failing transport
exhausts all 5 attempts and returns the wrapping error. -/
theorem publish_connection_bounded_retry_witness :
    publishConnection (fun i => if i < 2 then some "down" else none) =
      ⟨none, 3, List.replicate 2 2⟩ ∧
    publishConnection (fun _ : Nat => some "down") =
      ⟨some ("failed to publish cluster connection after retries: " ++ "down"),
       5, List.replicate 5 2⟩ :=
  ⟨(publish_connection_bounded_retry (fun i => if i < 2 then some "down" else none)
      (fun _ => "down")).1 2 (by omega)
      (by intro i hi; interval_cases i <;> rfl) rfl,
   (publish_connection_bounded_retry (fun _ : Nat => some "down")
      (fun _ => "down")).2 (by intro i _; rfl)⟩

end Cluster

namespace Messaging

/-- A subscriber handler: payload to handler error (`none` = nil). -/
abbrev Handler := String → Option String

/-- The `GRPCServer.handlers` table: topic to attached handlers. -/
abbrev HandlerTable := List (String × List Handler)

def lookupHandlers : HandlerTable → String → Option (List Handler)
  | [], _ => none
  | (k, hs) :: rest, topic => if k = topic then some hs else lookupHandlers rest topic

/-- The gRPC `EventResponse` message (only its `success` flag matters). -/
structure EventResponse where
  success : Bool

/-- The handler loop of `PublishEvent`: the first failing handler stops
the loop and its error becomes the RPC error; otherwise success. -/
def runHandlers : List Handler → String → EventResponse × Option String
  | [], _ => (⟨true⟩, none)
  | h :: rest, payload =>
    match h payload with
    | some e => (⟨false⟩, some e)
    | none => runHandlers rest payload

/-- `GRPCServer.PublishEvent`: a topic with no attached handlers yields
`EventResponse{Success: false}` with a nil error — the event is simply
dropped. -/
def publishEvent (table : HandlerTable) (topic payload : String) :
    EventResponse × Option String :=
  match lookupHandlers table topic with
  | none => (⟨false⟩, none)
  | some hs => runHandlers hs payload

/-- `GRPCClient.Publish`: fails if not connected; otherwise performs the
`PublishEvent` RPC, discards the response message and returns only the
RPC error. -/
def clientPublish (connected : Bool) (table : HandlerTable)
    (topic message : String) : Option String :=
  if connected = false then some "client not connected"
  else (publishEvent table topic message).2

/-- C8: publishing to a topic with zero attached subscribers (the topic is
absent from the handler table — `Subscribe` never leaves an empty list —
or present with no handlers) returns nil to the publisher: `Publish`
discards the response and returns only the RPC error, which is nil, so the
event is dropped without an error.  (The wire response's `success` flag is
false for an absent topic, but the Go client never reads it.) -/
theorem publish_no_subscribers_ok (table : HandlerTable) (topic payload : String)
    (h : lookupHandlers table topic = none ∨ lookupHandlers table topic = some []) :
    clientPublish true table topic payload = none ∧
    (publishEvent table topic payload).2 = none := by
  cases h with
  | inl h => simp [clientPublish, publishEvent, h]
  | inr h => simp [clientPublish, publishEvent, h, runHandlers]

/-- Witness for C8: a `pod_added` publish into a table with no
subscription for that topic returns nil. -/
theorem publish_no_subscribers_ok_witness :
    clientPublish true [] "pod_added" "envelope" = none ∧
    (publishEvent [] "pod_added" "envelope").2 = none :=
  publish_no_subscribers_ok [] "pod_added" "envelope" (Or.inl rfl)

end Messaging

namespace Watch

/-- A pod as held by the informer cache (identity plus opaque content). -/
structure PodObj where
  ns : String
  name : String
  spec : String
deriving DecidableEq

/-- The informer's local store, keyed by (namespace, name). -/
abbrev PodCache := List ((String × String) × PodObj)

def cacheKey (p : PodObj) : String × String := (p.ns, p.name)

def putEntry : PodCache → (String × String) → PodObj → PodCache
  | [], k, p => [(k, p)]
  | (k0, p0) :: rest, k, p =>
    if k0 = k then (k0, p) :: rest else (k0, p0) :: putEntry rest k p

def removeEntry : PodCache → (String × String) → PodCache
  | [], _ => []
  | (k0, p0) :: rest, k =>
    if k0 = k then removeEntry rest k else (k0, p0) :: removeEntry rest k

/-- One event of the pod watch stream. -/
inductive PodEvent
  | added (p : PodObj)
  | updated (p : PodObj)
  | deleted (p : PodObj)

/-- Modelled from the spec: the watcher cache semantics of §3 — the cache
never holds two entries for one (namespace, name) key, an add/update
replaces in place, a delete removes the entry.  (The concrete cache is the
client-go informer store, an external dependency outside this
repository.) -/
def applyPodEvent (c : PodCache) : PodEvent → PodCache
  | .added p => putEntry c (cacheKey p) p
  | .updated p => putEntry c (cacheKey p) p
  | .deleted p => removeEntry c (cacheKey p)

def lookupPod : PodCache → String → String → Option PodObj
  | [], _, _ => none
  | (k, p) :: rest, ns, name =>
    if k = (ns, name) then some p else lookupPod rest ns name

/-- `PodProvider.ListPods` once the cache has synced: with a namespace it
lists that namespace from the lister, otherwise all namespaces; values are
deep copies of cache entries, never a live API call. -/
def listPods (c : PodCache) (ns : String) : List PodObj :=
  if ns ≠ "" then (c.filter (fun e => e.1.1 == ns)).map (fun e => e.2)
  else c.map (fun e => e.2)

/-- Where one `PodProvider.GetPod` read was answered from. -/
inductive GetPodOutcome
  | fromCache (p : PodObj)
  | liveQuery (ns name : String)
deriving DecidableEq

/-- `PodProvider.GetPod` once the cache has synced: a cache hit returns a
deep copy; on a cache miss (or any lister error) the code falls back to a
direct live-cluster API call `conn.Client.CoreV1().Pods(ns).Get(...)`. -/
def getPod (c : PodCache) (ns name : String) : GetPodOutcome :=
  match lookupPod c ns name with
  | some p => .fromCache p
  | none => .liveQuery ns name

/-- Did the read contact the live cluster? -/
def isLiveQuery : GetPodOutcome → Bool
  | .liveQuery _ _ => true
  | .fromCache _ => false

/-- The pod of the claim's concrete scenario. -/
def web1 : PodObj := { ns := "default", name := "web-1", spec := "img-v1" }

/-- Counterexample for C4 as stated: after pod `web-1` is added then
deleted, `List("default")` is `[]`, but `Get("web-1")` does not fail with
NotFound — the cache-miss branch of `GetPod` issues a direct live-cluster
query, so the synced read path does contact the network. -/
theorem getpod_fallback_counterexample :
    listPods (applyPodEvent (applyPodEvent [] (.added web1)) (.deleted web1)) "default" = [] ∧
    getPod (applyPodEvent (applyPodEvent [] (.added web1)) (.deleted web1))
        "default" "web-1" = .liveQuery "default" "web-1" ∧
    isLiveQuery (getPod (applyPodEvent (applyPodEvent [] (.added web1)) (.deleted web1))
        "default" "web-1") = true := by
  decide

/-- C4 amended: once synced, `ListPods` reads only from the cache (it is a
function of the cache alone) and returns `[]` for the pod's namespace
after an add-then-delete; `GetPod` consults the cache first, but on a
cache miss it falls back to a direct live-cluster query instead of
failing with NotFound. -/
theorem list_from_cache_get_falls_back (p : PodObj) :
    listPods (applyPodEvent (applyPodEvent [] (.added p)) (.deleted p)) p.ns = [] ∧
    getPod (applyPodEvent (applyPodEvent [] (.added p)) (.deleted p)) p.ns p.name =
      .liveQuery p.ns p.name := by
  have hcache : applyPodEvent (applyPodEvent [] (.added p)) (.deleted p) = [] := by
    simp [applyPodEvent, putEntry, removeEntry]
  rw [hcache]
  constructor
  · by_cases h : p.ns = "" <;> simp [listPods, h]
  · rfl

/-- The kind of a watch callback, as dispatched by the informer event
handler registration (`AddFunc` / `UpdateFunc` / `DeleteFunc`). -/
inductive WatchEventKind
  | added | updated | deleted
deriving DecidableEq

/-- The topic each pod informer handler publishes to
(`pods.Manager.StartInformer`). -/
def podEventTopic : WatchEventKind → String
  | .added => "pod_added"
  | .updated => "pod_updated"
  | .deleted => "pod_deleted"

/-- The topic each namespace informer handler publishes to
(`namespaces.Manager.StartInformer`).  The `DeleteFunc` publishes to
`namespace_updated`. -/
def namespaceEventTopic : WatchEventKind → String
  | .added => "namespace_added"
  | .updated => "namespace_updated"
  | .deleted => "namespace_updated"

/-- The `<kind>_added` / `<kind>_updated` / `<kind>_deleted` topic
convention stated by the spec. -/
def conventionTopic (kind : String) : WatchEventKind → String
  | .added => kind ++ "_added"
  | .updated => kind ++ "_updated"
  | .deleted => kind ++ "_deleted"

/-- C5 evaluated on the code: the pod handlers follow the
`<kind>_<event>` convention, and so do the namespace add/update handlers,
but the namespace `DeleteFunc` publishes deleted namespaces to
`namespace_updated` — not to the `namespace_deleted` topic the convention
(and the symmetric pod handler set) prescribes. -/
theorem namespace_delete_topic_mismatch :
    (∀ e, podEventTopic e = conventionTopic "pod" e) ∧
    namespaceEventTopic .added = conventionTopic "namespace" .added ∧
    namespaceEventTopic .updated = conventionTopic "namespace" .updated ∧
    namespaceEventTopic .deleted = "namespace_updated" ∧
    namespaceEventTopic .deleted ≠ conventionTopic "namespace" .deleted := by
  refine ⟨fun e => ?_, rfl, rfl, rfl, by decide⟩
  cases e <;> rfl

end Watch

end KubeDashboard
